/-
Shallow embedding of `filetree/data.go` from the `dive` repository.

The Go source defines:
  * `DiffType` (an `int`) with constants Unchanged = 0, Changed = 1,
    Added = 2, Removed = 3, a `merge` operation and a `String` renderer;
  * `FileInfo` (path, tar type flag, 64-bit content hash, embedded
    `tar.Header`) with `NewFileInfo`, `Copy` and `Compare`;
  * `NodeData` (ViewInfo + FileInfo + DiffType) with `NewNodeData` and
    `Copy`; `ViewInfo` with `NewViewInfo` and `Copy`;
  * `getHashFromReader`, a streaming loop that drains an `io.Reader`
    through a fixed-size buffer into an xxhash64 accumulator.

Machine integers are modelled as `Nat` with explicit `% 2 ^ 64` where the
Go code uses `uint64` arithmetic; Go `int64` values are modelled as `Int`
and the Go conversion `uint64(int64)` as reduction modulo `2 ^ 64`.
The third-party streaming hasher (`github.com/cespare/xxhash`) is modelled
by its observable contract: the accumulator absorbs the bytes written to
it and `Sum64` is the (one-shot) XXH64 function of the absorbed byte
string, implemented below from the published XXH64 algorithm (seed 0).
Go maps are reference values: the two map-typed fields of `tar.Header`
(`Xattrs`, `PAXRecords`) are modelled as references (`Nat` addresses)
into an explicit store, so that sharing of mutable backing storage
between a value and its copy is observable.
-/
import Mathlib

namespace Filetree

/-! ### XXH64 (model of the `github.com/cespare/xxhash` library, seed 0) -/

def M64 : Nat := 2 ^ 64

def XXH_PRIME1 : Nat := 11400714785074694791
def XXH_PRIME2 : Nat := 14029467366897019727
def XXH_PRIME3 : Nat := 1609587929392839161
def XXH_PRIME4 : Nat := 9650029242287828579
def XXH_PRIME5 : Nat := 2870177450012600261

/-- 64-bit rotate left. -/
def rotl (x n : Nat) : Nat :=
  ((x <<< n) ||| (x >>> (64 - n))) % M64

/-- Little-endian 64-bit lane from eight bytes. -/
def le64 (b0 b1 b2 b3 b4 b5 b6 b7 : Nat) : Nat :=
  b0 + 256 * (b1 + 256 * (b2 + 256 * (b3 + 256 * (b4 + 256 * (b5 + 256 * (b6 + 256 * b7))))))

/-- Little-endian 32-bit lane from four bytes. -/
def le32 (b0 b1 b2 b3 : Nat) : Nat :=
  b0 + 256 * (b1 + 256 * (b2 + 256 * b3))

def xxhRound (acc lane : Nat) : Nat :=
  (rotl ((acc + lane * XXH_PRIME2) % M64) 31 * XXH_PRIME1) % M64

def xxhMergeRound (acc v : Nat) : Nat :=
  ((acc ^^^ xxhRound 0 v) * XXH_PRIME1 + XXH_PRIME4) % M64

def xxhAvalanche (h0 : Nat) : Nat :=
  let h1 := h0 ^^^ (h0 >>> 33)
  let h2 := (h1 * XXH_PRIME2) % M64
  let h3 := h2 ^^^ (h2 >>> 29)
  let h4 := (h3 * XXH_PRIME3) % M64
  h4 ^^^ (h4 >>> 32)

/-- Main loop of XXH64: consume 32-byte stripes while at least 32 bytes remain. -/
def xxhStripes (v1 v2 v3 v4 : Nat) :
    List Nat → (Nat × Nat × Nat × Nat) × List Nat
  | b0 :: b1 :: b2 :: b3 :: b4 :: b5 :: b6 :: b7 ::
    b8 :: b9 :: b10 :: b11 :: b12 :: b13 :: b14 :: b15 ::
    b16 :: b17 :: b18 :: b19 :: b20 :: b21 :: b22 :: b23 ::
    b24 :: b25 :: b26 :: b27 :: b28 :: b29 :: b30 :: b31 :: rest =>
      xxhStripes
        (xxhRound v1 (le64 b0 b1 b2 b3 b4 b5 b6 b7))
        (xxhRound v2 (le64 b8 b9 b10 b11 b12 b13 b14 b15))
        (xxhRound v3 (le64 b16 b17 b18 b19 b20 b21 b22 b23))
        (xxhRound v4 (le64 b24 b25 b26 b27 b28 b29 b30 b31))
        rest
  | rest => ((v1, v2, v3, v4), rest)

/-- Finalization: consume 8-byte lanes while at least 8 bytes remain. -/
def xxhTail8 (h : Nat) : List Nat → Nat × List Nat
  | b0 :: b1 :: b2 :: b3 :: b4 :: b5 :: b6 :: b7 :: rest =>
      xxhTail8
        (((rotl (h ^^^ xxhRound 0 (le64 b0 b1 b2 b3 b4 b5 b6 b7)) 27) * XXH_PRIME1
            + XXH_PRIME4) % M64)
        rest
  | rest => (h, rest)

/-- Finalization: consume one 4-byte lane if at least 4 bytes remain
(after `xxhTail8` fewer than 8 remain, so this fires at most once). -/
def xxhTail4 (h : Nat) : List Nat → Nat × List Nat
  | b0 :: b1 :: b2 :: b3 :: rest =>
      (((rotl (h ^^^ ((le32 b0 b1 b2 b3) * XXH_PRIME1 % M64)) 23) * XXH_PRIME2
          + XXH_PRIME3) % M64, rest)
  | rest => (h, rest)

/-- Finalization: consume the remaining bytes one at a time. -/
def xxhTail1 (h : Nat) : List Nat → Nat
  | [] => h
  | b :: rest =>
      xxhTail1 ((rotl (h ^^^ (b * XXH_PRIME5 % M64)) 11) * XXH_PRIME1 % M64) rest

/-- One-shot XXH64 with seed 0 over a byte string: the value the streaming
accumulator reports via `Sum64` after absorbing exactly these bytes. -/
def xxh64 (input : List Nat) : Nat :=
  let len := input.length
  let step1 : Nat × List Nat :=
    if 32 ≤ len then
      let s := xxhStripes ((XXH_PRIME1 + XXH_PRIME2) % M64) XXH_PRIME2 0
        ((M64 - XXH_PRIME1) % M64) input
      let v1 := s.1.1
      let v2 := s.1.2.1
      let v3 := s.1.2.2.1
      let v4 := s.1.2.2.2
      let h := (rotl v1 1 + rotl v2 7 + rotl v3 12 + rotl v4 18) % M64
      let h := xxhMergeRound h v1
      let h := xxhMergeRound h v2
      let h := xxhMergeRound h v3
      let h := xxhMergeRound h v4
      (h, s.2)
    else
      (XXH_PRIME5, input)
  let h0 := (step1.1 + len) % M64
  let t8 := xxhTail8 h0 step1.2
  let t4 := xxhTail4 t8.1 t8.2
  xxhAvalanche (xxhTail1 t4.1 t4.2)

/-! ### DiffType (`DiffType` is a Go `int`; the constants come from the
`iota` block at the top of `data.go`) -/

abbrev DiffType := Int

def Unchanged : DiffType := 0
def Changed : DiffType := 1
def Added : DiffType := 2
def Removed : DiffType := 3

/-- `func (diff DiffType) merge(other DiffType) DiffType`:
return the given value unless the two values differ, in which case the
result is `Changed`. -/
def DiffType.merge (diff other : DiffType) : DiffType :=
  if diff = other then diff else Changed

/-! ### tar.Header, FileInfo, ViewInfo, NodeData -/

/-- Go map values are references to shared mutable backing storage; a
`MapRef` is the address of a `map[string]string` (0 models the nil map). -/
abbrev MapRef := Nat

/-- The store holding the contents of every `map[string]string`. -/
def MapStore := MapRef → List (String × String)

/-- Mutating a Go map through a reference: insert/overwrite a key.
The new binding shadows any earlier binding for the same key. -/
def mapWrite (s : MapStore) (ref : MapRef) (k v : String) : MapStore :=
  fun r => if r = ref then (k, v) :: s ref else s r

/-- Reading the contents of a Go map through a reference. -/
def mapRead (s : MapStore) (ref : MapRef) : List (String × String) :=
  s ref

/-- Model of `archive/tar`'s `Header` struct: scalar and string fields are
values; the two map-typed fields (`Xattrs`, `PAXRecords`) are references. -/
structure Header where
  Name : String
  Linkname : String
  Size : Int
  Mode : Int
  Uid : Int
  Gid : Int
  Typeflag : Nat
  ModTime : Int
  Xattrs : MapRef
  PAXRecords : MapRef
  Format : Int
deriving DecidableEq

/-- `tar.TypeDir` is the byte '5'. -/
def TypeDir : Nat := 53

/-- `FileInfo` contains tar metadata for a specific FileNode. -/
structure FileInfo where
  Path : String
  TypeFlag : Nat
  hash : Nat
  TarHeader : Header
deriving DecidableEq

/-- `ViewInfo` contains UI specific detail for a specific FileNode. -/
structure ViewInfo where
  Collapsed : Bool
  Hidden : Bool
deriving DecidableEq

/-- `NodeData` is the payload for a FileNode. -/
structure NodeData where
  ViewInfo : ViewInfo
  FileInfo : FileInfo
  DiffType : DiffType
deriving DecidableEq

/-- `NewViewInfo` creates a default ViewInfo. The Go code reads the
collapse default from global viper configuration; that external
configuration value is passed in explicitly as `cfg`. -/
def NewViewInfo (cfg : Bool) : ViewInfo :=
  ⟨cfg, false⟩

/-- `func (view *ViewInfo) Copy() *ViewInfo`: allocates a fresh default
ViewInfo and then overwrites the whole struct with the source
(`*newView = *view`), so the net result is a field-for-field copy. -/
def ViewInfo.Copy (cfg : Bool) (view : ViewInfo) : ViewInfo :=
  let _newView := NewViewInfo cfg
  ⟨view.Collapsed, view.Hidden⟩

/-- The zero value of `tar.Header` (both maps nil). -/
def Header.zero : Header :=
  ⟨"", "", 0, 0, 0, 0, 0, 0, 0, 0, 0⟩

/-- `NewNodeData` creates an empty NodeData struct for a FileNode. -/
def NewNodeData (cfg : Bool) : NodeData :=
  ⟨NewViewInfo cfg, ⟨"", 0, 0, Header.zero⟩, Unchanged⟩

/-- `func (data *FileInfo) Copy() *FileInfo`, non-nil branch: rebuild the
struct field by field. Copying the `TarHeader` field is a Go struct
assignment: scalar/string fields are copied by value, while the map-typed
fields copy the *reference* (the backing storage stays shared). -/
def FileInfo.Copy (data : FileInfo) : FileInfo :=
  ⟨data.Path, data.TypeFlag, data.hash, data.TarHeader⟩

/-- `func (data *FileInfo) Copy() *FileInfo` including the nil-receiver
guard: `if data == nil { return nil }`. A `*FileInfo` is an
`Option FileInfo`. -/
def FileInfo.copyPtr : Option FileInfo → Option FileInfo
  | none => none
  | some data => some data.Copy

/-- `func (data *NodeData) Copy() *NodeData`. -/
def NodeData.Copy (cfg : Bool) (data : NodeData) : NodeData :=
  ⟨data.ViewInfo.Copy cfg, data.FileInfo.Copy, data.DiffType⟩

/-- `func (data *FileInfo) Compare(other FileInfo) DiffType`:
Unchanged when both the type flags and the hashes agree, Changed
otherwise. -/
def FileInfo.Compare (data other : FileInfo) : DiffType :=
  if data.TypeFlag = other.TypeFlag then
    if data.hash = other.hash then Unchanged else Changed
  else Changed

/-! ### getHashFromReader and NewFileInfo

An `io.Reader` is modelled by the finite list of results its successive
`Read(buf)` calls return: each call yields the bytes placed in the buffer
(`n = data.length`) together with an error tag (`nil`, `io.EOF`, or some
other error). `logrus.Panic` aborts the extraction; it is modelled as a
distinguished outcome rather than a return value. A real reader can
always be called again, so exhausting the modelled list before the loop
exits is a model artifact, reported as `starved`. The loop threads the
un-consumed suffix of the read list through, so that how much of the
stream a function consumed is observable. -/

inductive RErr where
  | noErr : RErr
  | eof : RErr
  | other : RErr
deriving DecidableEq

/-- One result of `reader.Read(buf)`: the bytes read and the error tag. -/
structure ReadResult where
  data : List Nat
  err : RErr
deriving DecidableEq

inductive HashOutcome where
  | ok : Nat → Nat → HashOutcome
  | panicked : HashOutcome
  | starved : HashOutcome
deriving DecidableEq

/-- The loop body of `getHashFromReader`. `absorbed` is the byte string
written to the xxhash accumulator so far and `bytesRead` the running
`uint64` counter. Per iteration the Go code adds `n` to `bytesRead`,
panics on an error other than `io.EOF`, breaks (returning
`h.Sum64(), bytesRead`) when `n == 0`, and otherwise writes `buf[:n]`
to the accumulator and continues. -/
def hashLoop (absorbed : List Nat) (bytesRead : Nat) :
    List ReadResult → HashOutcome × List ReadResult
  | [] => (HashOutcome.starved, [])
  | r :: rest =>
      let bytesRead' := (bytesRead + r.data.length) % M64
      if r.err = RErr.other then (HashOutcome.panicked, rest)
      else if r.data.length = 0 then
        (HashOutcome.ok (xxh64 absorbed) bytesRead', rest)
      else hashLoop (absorbed ++ r.data) bytesRead' rest

/-- `func getHashFromReader(reader io.Reader) (uint64, uint64)`. -/
def getHashFromReader (reads : List ReadResult) :
    HashOutcome × List ReadResult :=
  hashLoop [] 0 reads

/-- A reader that delivers a byte sequence split at chosen chunk
boundaries: each chunk is one successful read, followed by the clean
end-of-stream read `(0, io.EOF)`. -/
def deliver (chunks : List (List Nat)) : List ReadResult :=
  chunks.map (fun c => ⟨c, RErr.noErr⟩) ++ [⟨[], RErr.eof⟩]

/-- The bytes delivered by a prefix of reads. -/
def preBytes (pre : List ReadResult) : List Nat :=
  (pre.map ReadResult.data).flatten

/-- Go's conversion `uint64(z)` of an `int64` value: reduction modulo
`2 ^ 64` (two's-complement reinterpretation). -/
def uint64OfInt (z : Int) : Nat :=
  (z % (M64 : Int)).toNat

inductive NFIResult where
  | ok : FileInfo → NFIResult
  | panicked : NFIResult
  | starved : NFIResult
deriving DecidableEq

/-- `func NewFileInfo(reader *tar.Reader, header *tar.Header, path string) FileInfo`.
For a directory header it returns immediately with hash 0, touching the
reader not at all; otherwise it drains the reader through
`getHashFromReader` and panics when the byte count disagrees with the
header's declared size (`bytesRead != uint64(header.Size)`). The pair's
second component is the state the reader is left in. -/
def NewFileInfo (reads : List ReadResult) (header : Header) (path : String) :
    NFIResult × List ReadResult :=
  if header.Typeflag = TypeDir then
    (NFIResult.ok ⟨path, header.Typeflag, 0, header⟩, reads)
  else
    match getHashFromReader reads with
    | (HashOutcome.ok hash bytesRead, rest) =>
        if bytesRead ≠ uint64OfInt header.Size then (NFIResult.panicked, rest)
        else (NFIResult.ok ⟨path, header.Typeflag, hash, header⟩, rest)
    | (HashOutcome.panicked, rest) => (NFIResult.panicked, rest)
    | (HashOutcome.starved, rest) => (NFIResult.starved, rest)

/-! ### Concrete fixtures used by witnesses and counterexamples -/

/-- A directory header (`Typeflag = '5'`). -/
def hdrDir : Header := ⟨"etc", "", 0, 493, 0, 0, TypeDir, 1000, 0, 0, 0⟩

/-- A second directory header with different timestamp and mode. -/
def hdrDir2 : Header := ⟨"etc", "", 0, 448, 0, 0, TypeDir, 2000, 0, 0, 0⟩

/-- A regular-file header (`Typeflag = '0'` = 48) declaring 100 bytes. -/
def hdrFile100 : Header := ⟨"bin/sh", "", 100, 493, 0, 0, 48, 1000, 0, 0, 0⟩

/-- A regular-file header whose `PAXRecords` map lives at store address 1
and whose `Xattrs` map lives at store address 2. -/
def hdrPax : Header := ⟨"etc/conf", "", 3, 420, 0, 0, 48, 1000, 2, 1, 0⟩

/-- A directory-typed FileInfo carrying a nonzero hash. -/
def fiDirA : FileInfo := ⟨"/etc", TypeDir, 1, hdrDir⟩

/-- A directory-typed FileInfo carrying a different nonzero hash. -/
def fiDirB : FileInfo := ⟨"/etc", TypeDir, 2, hdrDir2⟩

/-- A regular-file FileInfo. -/
def fiRegA : FileInfo := ⟨"/bin/sh", 48, 7, hdrFile100⟩

/-- A symlink-typed FileInfo (`Typeflag = '2'` = 50) with the same hash
as `fiRegA`. -/
def fiRegB : FileInfo := ⟨"/bin/sh", 50, 7, hdrFile100⟩

/-- A NodeData whose tar header has live map references. -/
def nd0 : NodeData := ⟨⟨false, false⟩, ⟨"/etc/conf", 48, 7, hdrPax⟩, Unchanged⟩

/-- The empty map store (every map empty). -/
def s0 : MapStore := fun _ => []

/-! ### Helper lemmas about the hashing loop -/

/-- Unfolding equation for one iteration of the loop. -/
theorem hashLoop_cons (absorbed : List Nat) (b : Nat) (r : ReadResult)
    (rest : List ReadResult) :
    hashLoop absorbed b (r :: rest) =
      if r.err = RErr.other then (HashOutcome.panicked, rest)
      else if r.data.length = 0 then
        (HashOutcome.ok (xxh64 absorbed) ((b + r.data.length) % M64), rest)
      else hashLoop (absorbed ++ r.data) ((b + r.data.length) % M64) rest := rfl

theorem preBytes_nil : preBytes [] = [] := rfl

theorem preBytes_cons (x : ReadResult) (xs : List ReadResult) :
    preBytes (x :: xs) = x.data ++ preBytes xs := rfl

/-- While every read succeeds with at least one byte, the loop absorbs the
bytes and, at the first zero-byte read that is not a hard error, returns
the hash of everything absorbed together with the running count. -/
theorem hashLoop_ok (r : ReadResult) (rest : List ReadResult)
    (hr : r.err ≠ RErr.other) (hd : r.data = []) :
    ∀ (pre : List ReadResult) (absorbed : List Nat) (b : Nat),
      (∀ x ∈ pre, x.err ≠ RErr.other ∧ x.data ≠ []) →
      b + (preBytes pre).length < M64 →
      hashLoop absorbed b (pre ++ r :: rest) =
        (HashOutcome.ok (xxh64 (absorbed ++ preBytes pre))
          (b + (preBytes pre).length), rest) := by
  intro pre
  induction pre with
  | nil =>
      intro absorbed b _ hb
      rw [preBytes_nil] at hb ⊢
      have hblt : b % M64 = b := Nat.mod_eq_of_lt (by simpa using hb)
      rw [List.nil_append, hashLoop_cons, if_neg hr, hd]
      simp [hblt]
  | cons x xs ih =>
      intro absorbed b hx hb
      have hxe := (hx x (List.mem_cons_self x xs)).1
      have hxd := (hx x (List.mem_cons_self x xs)).2
      have hlen : (preBytes (x :: xs)).length =
          x.data.length + (preBytes xs).length := by
        rw [preBytes_cons, List.length_append]
      have hmod : (b + x.data.length) % M64 = b + x.data.length :=
        Nat.mod_eq_of_lt (by omega)
      rw [List.cons_append, hashLoop_cons, if_neg hxe,
        if_neg (by simpa using hxd), hmod,
        ih (absorbed ++ x.data) (b + x.data.length)
          (fun y hy => hx y (List.mem_cons_of_mem x hy)) (by omega)]
      rw [preBytes_cons, List.length_append, ← List.append_assoc, ← Nat.add_assoc]

/-- While every read succeeds with at least one byte, the loop panics at
the first read whose error is neither nil nor end-of-stream. -/
theorem hashLoop_panic (r : ReadResult) (rest : List ReadResult)
    (hr : r.err = RErr.other) :
    ∀ (pre : List ReadResult) (absorbed : List Nat) (b : Nat),
      (∀ x ∈ pre, x.err ≠ RErr.other ∧ x.data ≠ []) →
      hashLoop absorbed b (pre ++ r :: rest) = (HashOutcome.panicked, rest) := by
  intro pre
  induction pre with
  | nil =>
      intro absorbed b _
      rw [List.nil_append, hashLoop_cons, if_pos hr]
  | cons x xs ih =>
      intro absorbed b hx
      have hxe := (hx x (List.mem_cons_self x xs)).1
      have hxd := (hx x (List.mem_cons_self x xs)).2
      rw [List.cons_append, hashLoop_cons, if_neg hxe,
        if_neg (by simpa using hxd)]
      exact ih _ _ (fun y hy => hx y (List.mem_cons_of_mem x hy))

/-- On a reader that delivers nonempty chunks followed by a clean
end-of-stream, `getHashFromReader` returns the hash of the concatenated
bytes and their total count, having drained the reader. -/
theorem getHash_deliver (chunks : List (List Nat))
    (hc : ∀ c ∈ chunks, c ≠ []) (hlen : chunks.flatten.length < M64) :
    getHashFromReader (deliver chunks) =
      (HashOutcome.ok (xxh64 chunks.flatten) chunks.flatten.length, []) := by
  have hpre : preBytes (chunks.map fun c => (⟨c, RErr.noErr⟩ : ReadResult)) =
      chunks.flatten := by
    rw [preBytes, List.map_map,
      show (ReadResult.data ∘ fun c => (⟨c, RErr.noErr⟩ : ReadResult)) = id from rfl,
      List.map_id]
  have h := hashLoop_ok ⟨[], RErr.eof⟩ [] (by simp) rfl
    (chunks.map fun c => ⟨c, RErr.noErr⟩) [] 0
    (by
      intro x hx
      rcases List.mem_map.mp hx with ⟨c, hcm, rfl⟩
      exact ⟨by simp, hc c hcm⟩)
    (by rw [hpre]; omega)
  rw [hpre] at h
  simpa [getHashFromReader, deliver] using h

/-! ### Claim theorems -/

/-- C1: `DiffType.merge` is commutative and associative: for all DiffType
values `a`, `b`, `c`, `merge a b = merge b a` and
`merge (merge a b) c = merge a (merge b c)`, so folding the statuses of an
unordered collection of children is independent of iteration order. The
statement quantifies over every value of the underlying Go `int`, not
just the four named constants. -/
theorem diffType_merge_comm_assoc (a b c : DiffType) :
    DiffType.merge a b = DiffType.merge b a ∧
    DiffType.merge (DiffType.merge a b) c =
      DiffType.merge a (DiffType.merge b c) := by
  simp only [DiffType.merge, Changed]
  constructor
  · split_ifs <;> simp_all
  · split_ifs <;> simp_all

/-- C2: for all DiffType values `x` and `y`, `merge x x = x`, and
`merge x y = Changed` whenever `x ≠ y`; in particular this holds for
every combination of Unchanged, Changed, Added and Removed. -/
theorem diffType_merge_idem_ne (x y : DiffType) :
    DiffType.merge x x = x ∧ (x ≠ y → DiffType.merge x y = Changed) := by
  constructor
  · simp [DiffType.merge]
  · intro h
    simp [DiffType.merge, h]

/-- Witness for C2 at concrete statuses. -/
theorem diffType_merge_idem_ne_witness :
    DiffType.merge Added Added = Added ∧
    DiffType.merge Added Removed = Changed :=
  ⟨(diffType_merge_idem_ne Added Removed).1,
   (diffType_merge_idem_ne Added Removed).2 (by decide)⟩

/-- C3: `Compare` returns Changed when the type flags differ (whatever the
hashes are, so also when the fingerprints coincide); Changed when the
type flags match, both entries are non-directory, and the fingerprints
differ; Unchanged when the type flags match and the fingerprints match;
and it never returns Added or Removed. -/
theorem fileInfo_compare_spec (a b : FileInfo) :
    (a.TypeFlag ≠ b.TypeFlag → FileInfo.Compare a b = Changed) ∧
    (a.TypeFlag = b.TypeFlag → a.TypeFlag ≠ TypeDir → b.TypeFlag ≠ TypeDir →
      a.hash ≠ b.hash → FileInfo.Compare a b = Changed) ∧
    (a.TypeFlag = b.TypeFlag → a.hash = b.hash →
      FileInfo.Compare a b = Unchanged) ∧
    FileInfo.Compare a b ≠ Added ∧ FileInfo.Compare a b ≠ Removed := by
  unfold FileInfo.Compare
  refine ⟨?_, ?_, ?_, ?_, ?_⟩ <;>
    split_ifs <;> simp_all [Unchanged, Changed, Added, Removed]

/-- Witness for C3: a symlink vs a regular file with equal hashes compares
Changed; an entry against itself compares Unchanged. -/
theorem fileInfo_compare_spec_witness :
    FileInfo.Compare fiRegA fiRegB = Changed ∧
    FileInfo.Compare fiRegA fiRegA = Unchanged :=
  ⟨(fileInfo_compare_spec fiRegA fiRegB).1 (by decide),
   (fileInfo_compare_spec fiRegA fiRegA).2.2.1 rfl rfl⟩

/-- C4 counterexample: two directory-typed FileInfo values whose stored
hashes differ compare Changed, not Unchanged — `Compare` does consult the
fingerprint even when both entries are directory-typed, so the claim as
stated over all FileInfo values is false. -/
theorem fileInfo_compare_dir_counterexample :
    fiDirA.TypeFlag = TypeDir ∧ fiDirB.TypeFlag = TypeDir ∧
    FileInfo.Compare fiDirA fiDirB ≠ Unchanged := by decide

/-- C4 (amended): for every pair of directory-typed FileInfo values whose
fingerprints are 0 — which `NewFileInfo` guarantees for every
directory entry it constructs — `Compare` returns Unchanged regardless of
paths, timestamps, or any other native metadata. -/
theorem fileInfo_compare_dir_amended (a b : FileInfo)
    (ha : a.TypeFlag = TypeDir) (hb : b.TypeFlag = TypeDir)
    (ha0 : a.hash = 0) (hb0 : b.hash = 0) :
    FileInfo.Compare a b = Unchanged := by
  unfold FileInfo.Compare
  rw [ha, hb, ha0, hb0]
  simp

/-- Witness for C4 (amended): two zero-hash directory entries with
different headers compare Unchanged. -/
theorem fileInfo_compare_dir_amended_witness :
    FileInfo.Compare ⟨"/etc", TypeDir, 0, hdrDir⟩ ⟨"/etc", TypeDir, 0, hdrDir2⟩ =
      Unchanged :=
  fileInfo_compare_dir_amended ⟨"/etc", TypeDir, 0, hdrDir⟩
    ⟨"/etc", TypeDir, 0, hdrDir2⟩ rfl rfl rfl rfl

/-- C10: `FileInfo.Copy` is total over nil: on a nil receiver it returns
nil, and on every non-nil receiver it returns a FileInfo whose Path,
TypeFlag, hash and tar header equal the source's. -/
theorem fileInfo_copyPtr_total :
    FileInfo.copyPtr none = none ∧
    ∀ fi : FileInfo, FileInfo.copyPtr (some fi) =
      some ⟨fi.Path, fi.TypeFlag, fi.hash, fi.TarHeader⟩ :=
  ⟨rfl, fun _ => rfl⟩

/-- C5: for a non-directory entry, whenever the total number of bytes the
hasher reads from the stream differs from the size declared in the
header — fewer or more — `NewFileInfo` panics and returns no FileInfo.
The stream delivers its payload in nonempty chunks followed by a clean
end-of-stream; the byte count stays within the `uint64` range. -/
theorem newFileInfo_size_mismatch (header : Header) (path : String)
    (chunks : List (List Nat))
    (hnd : header.Typeflag ≠ TypeDir)
    (hc : ∀ c ∈ chunks, c ≠ [])
    (hlen : chunks.flatten.length < M64)
    (hmm : chunks.flatten.length ≠ uint64OfInt header.Size) :
    NewFileInfo (deliver chunks) header path = (NFIResult.panicked, []) := by
  unfold NewFileInfo
  rw [if_neg hnd, getHash_deliver chunks hc hlen]
  show (if chunks.flatten.length ≠ uint64OfInt header.Size then
      (NFIResult.panicked, ([] : List ReadResult))
    else
      (NFIResult.ok ⟨path, header.Typeflag, xxh64 chunks.flatten, header⟩,
        ([] : List ReadResult))) = (NFIResult.panicked, [])
  rw [if_pos hmm]

/-- Witness for C5: a header declaring 100 bytes over a stream that yields
only 80 makes construction panic. -/
theorem newFileInfo_size_mismatch_witness :
    NewFileInfo (deliver [List.replicate 80 7]) hdrFile100 "/bin/sh" =
      (NFIResult.panicked, []) :=
  newFileInfo_size_mismatch hdrFile100 "/bin/sh" [List.replicate 80 7]
    (by decide) (by decide) (by decide) (by decide)

/-- C6 counterexample: a zero-byte read whose error is nil — no
end-of-stream condition at all — also terminates the loop normally, so
the hasher does not terminate *exactly* on zero-byte reads carrying the
end-of-stream condition. -/
theorem getHash_zero_read_counterexample :
    (RErr.noErr ≠ RErr.eof) ∧
    getHashFromReader [⟨[], RErr.noErr⟩] =
      (HashOutcome.ok (xxh64 []) 0, []) := by decide

/-- C6 (amended): the streaming hasher terminates exactly at the first
zero-byte read that does not carry a hard error — whether or not the
end-of-stream condition accompanies it — returning the fingerprint of the
bytes absorbed so far and the total byte count; and it fails fatally,
without retrying, at the first read whose error is other than nil or
end-of-stream. -/
theorem getHash_loop_amended :
    (∀ (pre : List ReadResult) (r : ReadResult) (rest : List ReadResult),
      (∀ x ∈ pre, x.err ≠ RErr.other ∧ x.data ≠ []) →
      r.err ≠ RErr.other → r.data = [] →
      (preBytes pre).length < M64 →
      getHashFromReader (pre ++ r :: rest) =
        (HashOutcome.ok (xxh64 (preBytes pre)) (preBytes pre).length, rest)) ∧
    (∀ (pre : List ReadResult) (r : ReadResult) (rest : List ReadResult),
      (∀ x ∈ pre, x.err ≠ RErr.other ∧ x.data ≠ []) →
      r.err = RErr.other →
      getHashFromReader (pre ++ r :: rest) = (HashOutcome.panicked, rest)) := by
  constructor
  · intro pre r rest hx hr hd hlen
    have h := hashLoop_ok r rest hr hd pre [] 0 hx (by omega)
    simpa [getHashFromReader] using h
  · intro pre r rest hx hr
    have h := hashLoop_panic r rest hr pre [] 0 hx
    simpa [getHashFromReader] using h

/-- Witness for C6 (amended): termination at a clean end-of-stream after
one 2-byte chunk, and a panic on a hard error after one 1-byte chunk. -/
theorem getHash_loop_amended_witness :
    getHashFromReader [⟨[1, 2], RErr.noErr⟩, ⟨[], RErr.eof⟩] =
      (HashOutcome.ok (xxh64 [1, 2]) 2, []) ∧
    getHashFromReader [⟨[3], RErr.noErr⟩, ⟨[7], RErr.other⟩] =
      (HashOutcome.panicked, []) := by
  constructor
  · have h := getHash_loop_amended.1 [⟨[1, 2], RErr.noErr⟩] ⟨[], RErr.eof⟩ []
      (by decide) (by decide) rfl (by decide)
    simpa [preBytes] using h
  · exact getHash_loop_amended.2 [⟨[3], RErr.noErr⟩] ⟨[7], RErr.other⟩ []
      (by decide) rfl

/-- C7: the fingerprint and byte count are a pure function of the byte
sequence the stream delivers: two runs over the same byte sequence `S`,
split at different chunk boundaries and read through buffers of different
chunk-size constants, return identical results, namely the XXH64 of `S`
and `S`'s length. -/
theorem getHash_deterministic (chunks1 chunks2 : List (List Nat))
    (csize1 csize2 : Nat)
    (h1 : ∀ c ∈ chunks1, c ≠ [] ∧ c.length ≤ csize1)
    (h2 : ∀ c ∈ chunks2, c ≠ [] ∧ c.length ≤ csize2)
    (hS : chunks1.flatten = chunks2.flatten)
    (hlen : chunks1.flatten.length < M64) :
    getHashFromReader (deliver chunks1) = getHashFromReader (deliver chunks2) ∧
    getHashFromReader (deliver chunks1) =
      (HashOutcome.ok (xxh64 chunks1.flatten) chunks1.flatten.length, []) := by
  have e1 := getHash_deliver chunks1 (fun c hc => (h1 c hc).1) hlen
  have e2 := getHash_deliver chunks2 (fun c hc => (h2 c hc).1) (hS ▸ hlen)
  rw [e1, e2, hS]
  exact ⟨rfl, rfl⟩

/-- Witness for C7: the bytes 1, 2, 3 delivered as chunks [1,2]+[3] or as
[1]+[2,3] hash identically. -/
theorem getHash_deterministic_witness :
    getHashFromReader (deliver [[1, 2], [3]]) =
      getHashFromReader (deliver [[1], [2, 3]]) :=
  (getHash_deterministic [[1, 2], [3]] [[1], [2, 3]] 2 2
    (by decide) (by decide) (by decide) (by decide)).1

/-- C8: for a header carrying the directory type flag, `NewFileInfo`
returns a FileInfo with fingerprint exactly 0, never invokes the content
hasher, and consumes nothing from the stream: the reader is returned in
exactly the state it was given, whatever it contains. -/
theorem newFileInfo_dir (reads : List ReadResult) (header : Header)
    (path : String) (hd : header.Typeflag = TypeDir) :
    NewFileInfo reads header path =
      (NFIResult.ok ⟨path, header.Typeflag, 0, header⟩, reads) := by
  unfold NewFileInfo
  rw [if_pos hd]

/-- Witness for C8: a directory header over a nonempty stream returns
hash 0 and leaves the stream untouched. -/
theorem newFileInfo_dir_witness :
    NewFileInfo [⟨[9], RErr.noErr⟩] hdrDir "/etc" =
      (NFIResult.ok ⟨"/etc", TypeDir, 0, hdrDir⟩, [⟨[9], RErr.noErr⟩]) :=
  newFileInfo_dir [⟨[9], RErr.noErr⟩] hdrDir "/etc" rfl

/-- C9 counterexample: `NodeData.Copy` does not sever all mutable backing
storage. The embedded `tar.Header` is copied by Go struct assignment, so
its map-typed `PAXRecords` field is copied as a *reference*: copy and
source hold the same map address, and a write through the copy's
reference is visible when reading through the source's reference, which
refutes the claim that mutating any field of the copy leaves the
corresponding field of the source unchanged. -/
theorem nodeData_copy_aliasing_counterexample :
    ((nd0.Copy false).FileInfo.TarHeader.PAXRecords =
      nd0.FileInfo.TarHeader.PAXRecords) ∧
    mapRead (mapWrite s0 ((nd0.Copy false).FileInfo.TarHeader.PAXRecords)
        "SCHILY.xattr.user.x" "1") nd0.FileInfo.TarHeader.PAXRecords ≠
      mapRead s0 nd0.FileInfo.TarHeader.PAXRecords := by decide

/-- C9 (amended): `Copy` returns a NodeData whose entry, view state and
diff status are field-for-field equal to the source's, and every scalar,
string, view-state and status field is an independent value copy; the one
exception is the embedded tar header's map-typed fields (Xattrs,
PAXRecords), which are shared by reference, so a map write through the
copy is read back through the source. -/
theorem nodeData_copy_amended (cfg : Bool) (d : NodeData) :
    d.Copy cfg = d ∧
    (d.Copy cfg).FileInfo.TarHeader.PAXRecords =
      d.FileInfo.TarHeader.PAXRecords ∧
    (d.Copy cfg).FileInfo.TarHeader.Xattrs = d.FileInfo.TarHeader.Xattrs ∧
    ∀ (s : MapStore) (k v : String),
      mapRead (mapWrite s ((d.Copy cfg).FileInfo.TarHeader.PAXRecords) k v)
          d.FileInfo.TarHeader.PAXRecords =
        (k, v) :: mapRead s d.FileInfo.TarHeader.PAXRecords := by
  refine ⟨rfl, rfl, rfl, ?_⟩
  intro s k v
  simp [mapRead, mapWrite, NodeData.Copy, FileInfo.Copy]

end Filetree
